import Mathlib

/-!
Shallow embedding of the Pong game in `src/script.js`.

Modelling conventions:
* JavaScript floating-point arithmetic is modelled over `ℝ`; `Math.cos`,
  `Math.sin`, `Math.hypot` become `Real.cos`, `Real.sin` and
  `Real.sqrt (x^2 + y^2)`.
* `Math.random()` draws are passed as explicit parameters (`uAngle` for the
  serve-angle draw, `uDir` for the serve-direction draw); the script's
  contract is that they lie in `[0, 1)`.
* The canvas dimensions `WIDTH`/`HEIGHT` come from the HTML page (not part of
  `src/`), so they are explicit parameters `W`, `H`.
* DOM side effects are modelled as state fields: the scoreboard is the score
  pair itself, and `messageEl` becomes the `messageHidden`/`messageText`
  fields.  `requestAnimationFrame` scheduling is driver glue and carries no
  game state, so it is not modelled.
-/

namespace Pong

open Real

noncomputable section

/-- Source: `const WIN_SCORE = 10` (line 22). -/
def WIN_SCORE : ℕ := 10

/-- Source: `const PADDLE_WIDTH = 12` (line 25). -/
def PADDLE_WIDTH : ℝ := 12

/-- Source: `const PADDLE_HEIGHT = 90` (line 26). -/
def PADDLE_HEIGHT : ℝ := 90

/-- Source: `const PADDLE_SPEED = 12` (line 27). -/
def PADDLE_SPEED : ℝ := 12

/-- A paddle record (lines 29-44).  The unused `dy` field is omitted;
`maxSpeed` is only meaningful for the right (AI) paddle. -/
structure Paddle where
  x : ℝ
  y : ℝ
  width : ℝ
  height : ℝ
  maxSpeed : ℝ

/-- The ball record (lines 47-54). -/
structure Ball where
  x : ℝ
  y : ℝ
  radius : ℝ
  speed : ℝ
  vx : ℝ
  vy : ℝ

/-- The whole mutable game state of the IIFE: flags, paddles, ball, scores,
held keys, and the message element's visibility/text. -/
structure GameState where
  paused : Bool
  gameOver : Bool
  leftPaddle : Paddle
  rightPaddle : Paddle
  ball : Ball
  playerScore : ℕ
  computerScore : ℕ
  keyArrowUp : Bool
  keyArrowDown : Bool
  messageHidden : Bool
  messageText : String

/-- Source: `clamp(v, a, b) = Math.max(a, Math.min(b, v))` (lines 66-68). -/
def clamp (v a b : ℝ) : ℝ := max a (min b v)

/-- Source: `resetBall(direction)` (lines 71-84): recenters the ball, sets
`speed = 9 + min(playerScore + computerScore, 12) * 0.35`, draws a random
angle in `[-45°, 45°)` (from `uAngle ∈ [0,1)`), picks the direction (random
via `uDir` when `direction = 0`) and derives the velocity. -/
def resetBall (W H uAngle uDir : ℝ) (direction : ℤ) (s : GameState) : GameState :=
  let speed : ℝ := 9 + (min (s.playerScore + s.computerScore) 12 : ℕ) * 0.35
  let angleDeg : ℝ := uAngle * 90 - 45
  let angle : ℝ := angleDeg * π / 180
  let dir : ℝ := if direction = 0 then (if uDir < 0.5 then -1 else 1) else (direction : ℝ)
  { s with ball := { s.ball with
      x := W / 2
      y := H / 2
      speed := speed
      vx := dir * speed * Real.cos angle
      vy := speed * Real.sin angle } }

/-- Source: `start()` (lines 87-93): calls `resetBall()` (direction 0), **then** zeroes
both scores, refreshes the scoreboard and enters the loop.  The `loop()` call
is the frame driver (it runs `update`/`draw` on animation ticks) and is not
part of the state transformation modelled here. -/
def start (W H uAngle uDir : ℝ) (s : GameState) : GameState :=
  let s1 := resetBall W H uAngle uDir 0 s
  { s1 with playerScore := 0, computerScore := 0 }

/-- Source: `endGame(playerWon)` (lines 257-262): sets `gameOver`, `paused`, reveals
the message element and writes the win/lose text. -/
def endGame (playerWon : Bool) (s : GameState) : GameState :=
  { s with
      gameOver := true
      paused := true
      messageHidden := false
      messageText := if playerWon then "You win! Refresh the page to play again."
        else "Computer wins. Refresh to try again." }

/-- Source: `paddleCollision(paddle)` (lines 140-147): circle-vs-AABB test between a
ball centred at `(bx, by)` with radius `r` and the paddle rectangle. -/
def paddleCollision (bx bY r : ℝ) (p : Paddle) : Prop :=
  let closestX := clamp bx p.x (p.x + p.width)
  let closestY := clamp bY p.y (p.y + p.height)
  (bx - closestX) * (bx - closestX) + (bY - closestY) * (bY - closestY) ≤ r * r

/-- Line 229: relative intersection `(ball.y - (paddle.y + h/2)) / (h/2)`. -/
def relativeIntersect (p : Paddle) (ballY : ℝ) : ℝ :=
  (ballY - (p.y + p.height / 2)) / (p.height / 2)

/-- Lines 231-232: bounce angle `relativeY * (60 * π / 180)`. -/
def bounceAngle (relativeY : ℝ) : ℝ :=
  relativeY * (60 * π / 180)

/-- Source: `reflectFromPaddle(paddle)` (lines 227-247) acting on the ball:
spin from the hit position, speed increase `0.8` over `Math.hypot(vx, vy)`,
direction away from the struck paddle (`isLeft`), and the `2.5` minimum
horizontal-speed floor. -/
def reflectFromPaddle (isLeft : Bool) (p : Paddle) (b : Ball) : Ball :=
  let relativeY := relativeIntersect p b.y
  let angle := bounceAngle relativeY
  let speedIncrease : ℝ := 0.8
  let currentSpeed := Real.sqrt (b.vx ^ 2 + b.vy ^ 2) + speedIncrease
  let dir : ℝ := if isLeft then 1 else -1
  let vx0 := dir * currentSpeed * Real.cos angle
  let vy0 := currentSpeed * Real.sin angle
  let vx1 := if |vx0| < 2.5 then dir * 2.5 else vx0
  { b with vx := vx1, vy := vy0 }

/-- Phase 1 of `update` (lines 153-162): keyboard stepping of the player paddle
followed by the clamp to `[0, H - height]`. -/
def movePlayerPaddle (H : ℝ) (s : GameState) : GameState :=
  let y1 := if s.keyArrowUp then s.leftPaddle.y - PADDLE_SPEED else s.leftPaddle.y
  let y2 := if s.keyArrowDown then y1 + PADDLE_SPEED else y1
  { s with leftPaddle := { s.leftPaddle with y := clamp y2 0 (H - s.leftPaddle.height) } }

/-- Phase 2 of `update` (lines 164-179): AI paddle follows the ball (or recenters
when the ball moves away), at most `maxSpeed` per frame, then the clamp. -/
def moveAIPaddle (H : ℝ) (s : GameState) : GameState :=
  let targetY := if s.ball.vx < 0 then H / 2 - s.rightPaddle.height / 2
    else s.ball.y - s.rightPaddle.height / 2
  let diff := targetY - s.rightPaddle.y
  let y1 := if s.rightPaddle.maxSpeed < |diff| then
      s.rightPaddle.y + Real.sign diff * s.rightPaddle.maxSpeed
    else s.rightPaddle.y + diff
  { s with rightPaddle := { s.rightPaddle with y := clamp y1 0 (H - s.rightPaddle.height) } }

/-- Phase 3 of `update` (lines 181-183): `ball.x += vx; ball.y += vy`. -/
def moveBall (s : GameState) : GameState :=
  { s with ball := { s.ball with x := s.ball.x + s.ball.vx, y := s.ball.y + s.ball.vy } }

/-- Phase 4 of `update` (lines 185-192): top/bottom wall reflection. -/
def wallBounce (H : ℝ) (s : GameState) : GameState :=
  if s.ball.y - s.ball.radius ≤ 0 then
    { s with ball := { s.ball with y := s.ball.radius, vy := -s.ball.vy } }
  else if H ≤ s.ball.y + s.ball.radius then
    { s with ball := { s.ball with y := H - s.ball.radius, vy := -s.ball.vy } }
  else s

open Classical in
/-- Phase 5 of `update` (lines 194-202): directional paddle-collision checks;
on a hit the ball is repositioned just outside the paddle face and reflected. -/
def paddleBounce (s : GameState) : GameState :=
  if s.ball.vx < 0 ∧ paddleCollision s.ball.x s.ball.y s.ball.radius s.leftPaddle then
    let b1 := { s.ball with x := s.leftPaddle.x + s.leftPaddle.width + s.ball.radius }
    { s with ball := reflectFromPaddle true s.leftPaddle b1 }
  else if 0 < s.ball.vx ∧ paddleCollision s.ball.x s.ball.y s.ball.radius s.rightPaddle then
    let b1 := { s.ball with x := s.rightPaddle.x - s.ball.radius }
    { s with ball := reflectFromPaddle false s.rightPaddle b1 }
  else s

/-- Phase 6 of `update` (lines 204-223): scoring.  If the ball's centre is past
`-radius` the computer scores (and the game ends at `WIN_SCORE`, else the ball
is re-served rightward); symmetric past `W + radius`. -/
def scoreCheck (W H uAngle uDir : ℝ) (s : GameState) : GameState :=
  if s.ball.x < -s.ball.radius then
    (if WIN_SCORE ≤ s.computerScore + 1 then
      endGame false { s with computerScore := s.computerScore + 1 }
    else
      resetBall W H uAngle uDir 1 { s with computerScore := s.computerScore + 1 })
  else if W + s.ball.radius < s.ball.x then
    (if WIN_SCORE ≤ s.playerScore + 1 then
      endGame true { s with playerScore := s.playerScore + 1 }
    else
      resetBall W H uAngle uDir (-1) { s with playerScore := s.playerScore + 1 })
  else s

/-- Source: `update()` (lines 150-224): no-op when paused or over, otherwise the six
phases run in source order on the shared state. -/
def update (W H uAngle uDir : ℝ) (s : GameState) : GameState :=
  if s.paused || s.gameOver then s
  else
    scoreCheck W H uAngle uDir
      (paddleBounce (wallBounce H (moveBall (moveAIPaddle H (movePlayerPaddle H s)))))

/-- The `Space` branch of the `keydown` listener (lines 269-278): toggles
`paused`, toggles the message element's `hidden` class to `!paused`, and sets
the text to `'Paused'` or `''`.  (The conditional `requestAnimationFrame`
re-arm is driver glue with no state effect.) -/
def keydownSpace (s : GameState) : GameState :=
  let paused := !s.paused
  { s with
      paused := paused
      messageHidden := !paused
      messageText := if paused then "Paused" else "" }

/-- The `mousemove` listener (lines 289-295): sets the player paddle from the
pointer's canvas-local y coordinate, clamped. -/
def mousemove (H mouseY : ℝ) (s : GameState) : GameState :=
  { s with leftPaddle := { s.leftPaddle with
      y := clamp (mouseY - s.leftPaddle.height / 2) 0 (H - s.leftPaddle.height) } }

/-- The `touchmove` listener (lines 298-305): same clamped assignment from the
touch's canvas-local y coordinate. -/
def touchmove (H touchY : ℝ) (s : GameState) : GameState :=
  { s with leftPaddle := { s.leftPaddle with
      y := clamp (touchY - s.leftPaddle.height / 2) 0 (H - s.leftPaddle.height) } }

/-- The initial state of the script (lines 20-63) for a 800×500 canvas:
paddles at `x = 20` and `x = WIDTH - PADDLE_WIDTH - 20 = 768`, both at
`y = (HEIGHT - PADDLE_HEIGHT) / 2 = 205`, ball centred, scores zero.  (The
left paddle has no `maxSpeed` in the script; `0` is a placeholder.) -/
def initState : GameState where
  paused := false
  gameOver := false
  leftPaddle := { x := 20, y := 205, width := 12, height := 90, maxSpeed := 0 }
  rightPaddle := { x := 768, y := 205, width := 12, height := 90, maxSpeed := 10 }
  ball := { x := 400, y := 250, radius := 9, speed := 0, vx := 0, vy := 0 }
  playerScore := 0
  computerScore := 0
  keyArrowUp := false
  keyArrowDown := false
  messageHidden := true
  messageText := ""

/-- The state `endGame(true)` leaves behind from `initState`: paused, game
over, win message showing. -/
def overState : GameState :=
  { initState with
      paused := true
      gameOver := true
      messageHidden := false
      messageText := "You win! Refresh the page to play again." }

/-- A running state with the computer one point from winning and the ball
exiting the left edge this frame. -/
def matchPointState : GameState :=
  { initState with
      computerScore := 9
      ball := { x := -20, y := 250, radius := 9, speed := 0, vx := -5, vy := 0 } }

/-- A running state with the ball's centre at `x = -radius - 1` and moving
left. -/
def exitLeftState : GameState :=
  { initState with
      ball := { x := -10, y := 250, radius := 9, speed := 9, vx := -5, vy := 0 } }

/-- A running state with the ball's centre at `x = -radius - 1` but moving
right fast enough to re-enter the field before the bounds check. -/
def ghostBallState : GameState :=
  { initState with
      ball := { x := -10, y := 250, radius := 9, speed := 9, vx := 9, vy := 0 } }

end

/-! ## Helper lemmas -/

/-- A unit direction squared is 1. -/
lemma dir_sq (isLeft : Bool) : ((if isLeft then (1 : ℝ) else -1)) ^ 2 = 1 := by
  cases isLeft <;> norm_num

/-- Velocity built from speed `s` and angle `a` with a unit direction has
squared norm `s ^ 2`. -/
lemma vel_sq (d s a : ℝ) (hd : d ^ 2 = 1) :
    (d * s * Real.cos a) ^ 2 + (s * Real.sin a) ^ 2 = s ^ 2 := by
  have h := Real.sin_sq_add_cos_sq a
  calc (d * s * Real.cos a) ^ 2 + (s * Real.sin a) ^ 2
      = (d ^ 2) * (s ^ 2 * Real.cos a ^ 2) + s ^ 2 * Real.sin a ^ 2 := by ring
    _ = s ^ 2 * (Real.sin a ^ 2 + Real.cos a ^ 2) := by rw [hd]; ring
    _ = s ^ 2 := by rw [h, mul_one]

/-- The lower clamp bound always holds. -/
lemma clamp_lower (v a b : ℝ) : a ≤ clamp v a b := le_max_left _ _

/-- The upper clamp bound holds whenever the interval is nonempty. -/
lemma clamp_upper (v a b : ℝ) (hab : a ≤ b) : clamp v a b ≤ b :=
  max_le hab (min_le_left _ _)

/-- Cosine is positive when the angle is strictly inside `(-π/2, π/2)`. -/
lemma cos_pos_of_abs_lt {a : ℝ} (h : |a| < π / 2) : 0 < Real.cos a :=
  Real.cos_pos_of_mem_Ioo ⟨neg_lt_of_abs_lt h, lt_of_abs_lt h⟩

/-- For angles of magnitude at most `π/4`, `|sin| ≤ cos`. -/
lemma abs_sin_le_cos {a : ℝ} (h : |a| ≤ π / 4) : |Real.sin a| ≤ Real.cos a := by
  have hπ : 0 < π := Real.pi_pos
  have hb0 : 0 ≤ |a| := abs_nonneg a
  have hmono : Real.sin |a| ≤ Real.sin (π / 2 - |a|) := by
    apply Real.strictMonoOn_sin.monotoneOn
    · exact ⟨by linarith, by linarith⟩
    · exact ⟨by linarith, by linarith⟩
    · linarith
  have hsub : Real.sin (π / 2 - |a|) = Real.cos |a| := Real.sin_pi_div_two_sub _
  have habs : |Real.sin a| = Real.sin |a| := by
    rcases abs_cases a with ⟨he, h0⟩ | ⟨he, h0⟩
    · rw [he]
      exact abs_of_nonneg (Real.sin_nonneg_of_nonneg_of_le_pi h0 (by linarith [abs_le.mp h]))
    · rw [he, Real.sin_neg]
      have hge : -π ≤ a := by
        have := neg_abs_le a
        linarith
      have : Real.sin a ≤ 0 :=
        Real.sin_nonpos_of_nonnpos_of_neg_pi_le h0.le hge
      rw [abs_of_nonpos this]
  rw [habs, ← Real.cos_abs a]
  rw [hsub] at hmono
  exact hmono

/-- A serve built from a positive speed and an angle of magnitude at most
`π/4` has a positive forward component dominating the vertical one. -/
lemma serve_components (speed ang : ℝ) (hsp : 0 < speed) (hang : |ang| ≤ π / 4) :
    0 < speed * Real.cos ang ∧ |speed * Real.sin ang| ≤ speed * Real.cos ang := by
  have hπ : 0 < π := Real.pi_pos
  have hcos : 0 < Real.cos ang := cos_pos_of_abs_lt (lt_of_le_of_lt hang (by linarith))
  refine ⟨mul_pos hsp hcos, ?_⟩
  rw [abs_mul, abs_of_pos hsp]
  exact mul_le_mul_of_nonneg_left (abs_sin_le_cos hang) hsp.le

/-- Velocity components produced by `resetBall` with a nonzero direction. -/
lemma resetBall_vx_vy (W H uAngle uDir : ℝ) (d : ℤ) (s : GameState) (hd : d ≠ 0) :
    (resetBall W H uAngle uDir d s).ball.vx =
      (d : ℝ) * (9 + (min (s.playerScore + s.computerScore) 12 : ℕ) * 0.35) *
        Real.cos ((uAngle * 90 - 45) * π / 180) ∧
    (resetBall W H uAngle uDir d s).ball.vy =
      (9 + (min (s.playerScore + s.computerScore) 12 : ℕ) * 0.35) *
        Real.sin ((uAngle * 90 - 45) * π / 180) := by
  constructor <;> simp [resetBall, hd]

/-- The serve-angle draw of `resetBall` has magnitude at most `π/4`. -/
lemma serve_angle_abs_le (uAngle : ℝ) (h0 : 0 ≤ uAngle) (h1 : uAngle ≤ 1) :
    |(uAngle * 90 - 45) * π / 180| ≤ π / 4 := by
  have hπ : 0 < π := Real.pi_pos
  have h45 : |uAngle * 90 - 45| ≤ 45 := abs_le.mpr ⟨by linarith, by linarith⟩
  have h180 : |(180 : ℝ)| = 180 := by norm_num
  calc |(uAngle * 90 - 45) * π / 180|
      = |uAngle * 90 - 45| * π / 180 := by
        rw [abs_div, abs_mul, abs_of_pos hπ, h180]
    _ ≤ 45 * π / 180 := by
        have : |uAngle * 90 - 45| * π ≤ 45 * π :=
          mul_le_mul_of_nonneg_right h45 hπ.le
        linarith
    _ = π / 4 := by ring

/-- The reset speed `9 + min(total, 12) * 0.35` is positive. -/
lemma resetSpeed_pos (s : GameState) :
    0 < 9 + ((min (s.playerScore + s.computerScore) 12 : ℕ) : ℝ) * 0.35 := by
  positivity

/-- The function `clamp` pins an input below the interval to the lower bound. -/
lemma clamp_eq_left {v a b : ℝ} (hva : v ≤ a) (hvb : v ≤ b) : clamp v a b = a := by
  unfold clamp
  rw [min_eq_right hvb, max_eq_left hva]

/-- The function `clamp` pins an input above the interval to the upper bound. -/
lemma clamp_eq_right {v a b : ℝ} (hbv : b ≤ v) (hab : a ≤ b) : clamp v a b = b := by
  unfold clamp
  rw [min_eq_left hbv, max_eq_right hab]

/-- Unfolding `update` on a running, non-over state gives the six-phase pipeline. -/
lemma update_running (W H uAngle uDir : ℝ) (s : GameState)
    (hp : s.paused = false) (hg : s.gameOver = false) :
    update W H uAngle uDir s =
      scoreCheck W H uAngle uDir
        (paddleBounce (wallBounce H (moveBall (moveAIPaddle H (movePlayerPaddle H s))))) := by
  simp [update, hp, hg]

/-- Fields of the state after the pre-scoring pipeline (player paddle, AI
paddle, ball translation, wall bounce): the ball's `x`, `vx` and `radius`,
the paddles' `x`/`width`, the scores and the flags. -/
lemma pipeline_fields (H : ℝ) (s : GameState) :
    (wallBounce H (moveBall (moveAIPaddle H (movePlayerPaddle H s)))).ball.x
        = s.ball.x + s.ball.vx ∧
    (wallBounce H (moveBall (moveAIPaddle H (movePlayerPaddle H s)))).ball.vx = s.ball.vx ∧
    (wallBounce H (moveBall (moveAIPaddle H (movePlayerPaddle H s)))).ball.radius
        = s.ball.radius ∧
    (wallBounce H (moveBall (moveAIPaddle H (movePlayerPaddle H s)))).leftPaddle.x
        = s.leftPaddle.x ∧
    (wallBounce H (moveBall (moveAIPaddle H (movePlayerPaddle H s)))).leftPaddle.width
        = s.leftPaddle.width ∧
    (wallBounce H (moveBall (moveAIPaddle H (movePlayerPaddle H s)))).rightPaddle.x
        = s.rightPaddle.x ∧
    (wallBounce H (moveBall (moveAIPaddle H (movePlayerPaddle H s)))).rightPaddle.width
        = s.rightPaddle.width ∧
    (wallBounce H (moveBall (moveAIPaddle H (movePlayerPaddle H s)))).playerScore
        = s.playerScore ∧
    (wallBounce H (moveBall (moveAIPaddle H (movePlayerPaddle H s)))).computerScore
        = s.computerScore := by
  simp only [movePlayerPaddle, moveAIPaddle, moveBall, wallBounce]
  split_ifs <;> simp

/-- The phase `paddleBounce` is the identity when neither directional collision test
fires. -/
lemma paddleBounce_eq_self (s : GameState)
    (h1 : ¬ (s.ball.vx < 0 ∧ paddleCollision s.ball.x s.ball.y s.ball.radius s.leftPaddle))
    (h2 : ¬ (0 < s.ball.vx ∧ paddleCollision s.ball.x s.ball.y s.ball.radius s.rightPaddle)) :
    paddleBounce s = s := by
  unfold paddleBounce
  rw [if_neg h1, if_neg h2]

/-- No circle-rectangle collision when the horizontal gap already exceeds the
radius. -/
lemma paddleCollision_false (bx bY r : ℝ) (p : Paddle)
    (h : r * r < (bx - clamp bx p.x (p.x + p.width)) * (bx - clamp bx p.x (p.x + p.width))) :
    ¬ paddleCollision bx bY r p := by
  unfold paddleCollision
  intro hc
  nlinarith [mul_self_nonneg (bY - clamp bY p.y (p.y + p.height))]

/-- The left/AI paddles keep their `leftPaddle`/`rightPaddle` components
through the phases that do not own them, and the scoring phase never moves a
paddle. -/
lemma scoreCheck_paddles (W H uAngle uDir : ℝ) (s : GameState) :
    (scoreCheck W H uAngle uDir s).leftPaddle = s.leftPaddle ∧
    (scoreCheck W H uAngle uDir s).rightPaddle = s.rightPaddle := by
  unfold scoreCheck endGame resetBall
  constructor <;> (split_ifs <;> rfl)

/-- The phase `paddleBounce` never moves a paddle. -/
lemma paddleBounce_paddles (s : GameState) :
    (paddleBounce s).leftPaddle = s.leftPaddle ∧
    (paddleBounce s).rightPaddle = s.rightPaddle := by
  unfold paddleBounce
  split_ifs <;> simp

/-- The left paddle after the full pipeline is the one `movePlayerPaddle`
produced; the right paddle is the one `moveAIPaddle` produced. -/
lemma pipeline_paddles (W H uAngle uDir : ℝ) (s : GameState) :
    (scoreCheck W H uAngle uDir
        (paddleBounce (wallBounce H (moveBall (moveAIPaddle H (movePlayerPaddle H s)))))).leftPaddle
      = (movePlayerPaddle H s).leftPaddle ∧
    (scoreCheck W H uAngle uDir
        (paddleBounce (wallBounce H (moveBall (moveAIPaddle H (movePlayerPaddle H s)))))).rightPaddle
      = (moveAIPaddle H (movePlayerPaddle H s)).rightPaddle := by
  obtain ⟨hsl, hsr⟩ := scoreCheck_paddles W H uAngle uDir
    (paddleBounce (wallBounce H (moveBall (moveAIPaddle H (movePlayerPaddle H s)))))
  obtain ⟨hbl, hbr⟩ :=
    paddleBounce_paddles (wallBounce H (moveBall (moveAIPaddle H (movePlayerPaddle H s))))
  rw [hsl, hsr, hbl, hbr]
  constructor <;>
    · simp only [moveAIPaddle, moveBall, wallBounce]
      split_ifs <;> simp

/-- Bounds on the player paddle's `y` after the keyboard-stepping phase. -/
lemma movePlayerPaddle_y_bounds (H : ℝ) (s : GameState) (hh : s.leftPaddle.height ≤ H) :
    0 ≤ (movePlayerPaddle H s).leftPaddle.y ∧
      (movePlayerPaddle H s).leftPaddle.y ≤ H - s.leftPaddle.height := by
  simp only [movePlayerPaddle]
  exact ⟨clamp_lower _ _ _, clamp_upper _ _ _ (by linarith)⟩

/-- Bounds on the AI paddle's `y` after the AI-motion phase. -/
lemma moveAIPaddle_y_bounds (H : ℝ) (s : GameState) (hh : s.rightPaddle.height ≤ H) :
    0 ≤ (moveAIPaddle H s).rightPaddle.y ∧
      (moveAIPaddle H s).rightPaddle.y ≤ H - s.rightPaddle.height := by
  simp only [moveAIPaddle]
  exact ⟨clamp_lower _ _ _, clamp_upper _ _ _ (by linarith)⟩

/-- Behaviour of the horizontal-floor branch of the reflection: for a unit
direction `d`, positive speed `cs` and positive cosine `c`, the final `vx` has
magnitude at least `2.5` and the sign of `d`. -/
lemma floor_core (d cs c : ℝ) (hd : d = 1 ∨ d = -1) (hcs : 0 < cs) (hc : 0 < c) :
    2.5 ≤ |if |d * cs * c| < 2.5 then d * 2.5 else d * cs * c| ∧
    (d = 1 → 2.5 ≤ (if |d * cs * c| < 2.5 then d * 2.5 else d * cs * c)) ∧
    (d = -1 → (if |d * cs * c| < 2.5 then d * 2.5 else d * cs * c) ≤ -2.5) := by
  have hpos : 0 < cs * c := mul_pos hcs hc
  have h25 : |(2.5 : ℝ)| = 2.5 := abs_of_pos (by norm_num)
  by_cases hf : |d * cs * c| < 2.5
  · rw [if_pos hf]
    refine ⟨?_, fun h => ?_, fun h => ?_⟩
    · rcases hd with h | h
      · rw [h, one_mul, h25]
      · rw [h, neg_one_mul, abs_neg, h25]
    · rw [h]; norm_num
    · rw [h]; norm_num
  · rw [if_neg hf]
    have habs : 2.5 ≤ |d * cs * c| := not_lt.mp hf
    refine ⟨habs, fun h => ?_, fun h => ?_⟩
    · rw [h] at habs ⊢
      rw [one_mul] at habs ⊢
      rwa [abs_of_pos hpos] at habs
    · rw [h] at habs ⊢
      have hneg : -1 * cs * c = -(cs * c) := by ring
      rw [hneg] at habs ⊢
      rw [abs_neg, abs_of_pos hpos] at habs
      linarith

/-- The serve of `resetBall` points in the direction of its argument. -/
lemma resetBall_vx_sign (W H uAngle uDir : ℝ) (s : GameState)
    (h0 : 0 ≤ uAngle) (h1 : uAngle ≤ 1) :
    0 < (resetBall W H uAngle uDir 1 s).ball.vx ∧
    (resetBall W H uAngle uDir (-1) s).ball.vx < 0 := by
  obtain ⟨hc1, hc2⟩ := serve_components _ _ (resetSpeed_pos s) (serve_angle_abs_le uAngle h0 h1)
  obtain ⟨hvx1, -⟩ := resetBall_vx_vy W H uAngle uDir 1 s (by norm_num)
  obtain ⟨hvx2, -⟩ := resetBall_vx_vy W H uAngle uDir (-1) s (by norm_num)
  constructor
  · rw [hvx1, Int.cast_one, one_mul]
    exact hc1
  · rw [hvx2]
    have hm1 : ((-1 : ℤ) : ℝ) = -1 := by norm_num
    rw [hm1, neg_one_mul]
    linarith

/-! ## Claims -/

/-- C10: every call to `resetBall`, for every direction argument and every
score pair, places the ball's centre exactly at the playfield centre
`(W / 2, H / 2)`. -/
theorem resetBall_centers (W H uAngle uDir : ℝ) (d : ℤ) (s : GameState) :
    (resetBall W H uAngle uDir d s).ball.x = W / 2 ∧
    (resetBall W H uAngle uDir d s).ball.y = H / 2 := by
  constructor <;> simp [resetBall]

/-- C2: for every paddle bounce, the Euclidean norm of the ball's velocity
after `reflectFromPaddle` is at least the norm before the bounce plus `0.8`
(the speed increment); hence speed never decreases across bounces. -/
theorem reflect_speed_gain (isLeft : Bool) (p : Paddle) (b : Ball) :
    Real.sqrt (b.vx ^ 2 + b.vy ^ 2) + 0.8 ≤
      Real.sqrt ((reflectFromPaddle isLeft p b).vx ^ 2 +
        (reflectFromPaddle isLeft p b).vy ^ 2) := by
  set a := bounceAngle (relativeIntersect p b.y) with ha
  set s := Real.sqrt (b.vx ^ 2 + b.vy ^ 2) + 0.8 with hs
  have hs0 : 0 ≤ s := by
    have := Real.sqrt_nonneg (b.vx ^ 2 + b.vy ^ 2)
    rw [hs]; linarith
  set d : ℝ := if isLeft then 1 else -1 with hd
  have hd1 : d ^ 2 = 1 := dir_sq isLeft
  have hveq : (d * s * Real.cos a) ^ 2 + (s * Real.sin a) ^ 2 = s ^ 2 :=
    vel_sq d s a hd1
  simp only [reflectFromPaddle, ← ha, ← hs, ← hd]
  by_cases hfloor : |d * s * Real.cos a| < 2.5
  · rw [if_pos hfloor]
    have h1 : (d * s * Real.cos a) ^ 2 ≤ (d * 2.5) ^ 2 := by
      have h2 : (d * s * Real.cos a) ^ 2 ≤ 2.5 ^ 2 := by
        have := abs_nonneg (d * s * Real.cos a)
        calc (d * s * Real.cos a) ^ 2 = |d * s * Real.cos a| ^ 2 := (sq_abs _).symm
          _ ≤ 2.5 ^ 2 := by nlinarith [hfloor.le]
      calc (d * s * Real.cos a) ^ 2 ≤ 2.5 ^ 2 := h2
        _ = (d * 2.5) ^ 2 := by rw [mul_pow, hd1]; ring
    calc s = Real.sqrt (s ^ 2) := (Real.sqrt_sq hs0).symm
      _ = Real.sqrt ((d * s * Real.cos a) ^ 2 + (s * Real.sin a) ^ 2) := by rw [hveq]
      _ ≤ Real.sqrt ((d * 2.5) ^ 2 + (s * Real.sin a) ^ 2) := by
          apply Real.sqrt_le_sqrt; linarith
  · rw [if_neg hfloor]
    rw [hveq, Real.sqrt_sq hs0]

/-- C6: the reflection rule maps the relative intersection `r` to a bounce
angle of `r × 60°` (in radians `r * (60 * π / 180)`): a centre hit `r = 0`
gives angle `0` and a purely horizontal bounce (`vy = 0`), and `r = ±1` gives
angle `±60°`, i.e. magnitude `π / 3`. -/
theorem bounce_angle_rule (isLeft : Bool) (p : Paddle) (b : Ball) :
    (relativeIntersect p b.y = 0 →
      bounceAngle (relativeIntersect p b.y) = 0 ∧ (reflectFromPaddle isLeft p b).vy = 0) ∧
    bounceAngle 1 = 60 * (π / 180) ∧
    bounceAngle (-1) = -(60 * (π / 180)) ∧
    |bounceAngle 1| = π / 3 ∧ |bounceAngle (-1)| = π / 3 := by
  have hπ : 0 < π := Real.pi_pos
  refine ⟨fun h => ⟨?_, ?_⟩, ?_, ?_, ?_, ?_⟩
  · rw [h]; simp [bounceAngle]
  · simp [reflectFromPaddle, h, bounceAngle]
  · unfold bounceAngle; ring
  · unfold bounceAngle; ring
  · unfold bounceAngle
    rw [one_mul, abs_of_pos (by positivity)]
    ring
  · unfold bounceAngle
    rw [neg_one_mul, abs_neg, abs_of_pos (by positivity)]
    ring

/-- Witness for C6 at a concrete centre hit: a ball at `y = 145` on a paddle
spanning `y ∈ [100, 190]`. -/
theorem bounce_angle_rule_witness :
    bounceAngle (relativeIntersect { x := 20, y := 100, width := 12, height := 90, maxSpeed := 0 }
        (Ball.y { x := 41, y := 145, radius := 9, speed := 0, vx := -3, vy := 0 })) = 0 ∧
    (reflectFromPaddle true { x := 20, y := 100, width := 12, height := 90, maxSpeed := 0 }
        { x := 41, y := 145, radius := 9, speed := 0, vx := -3, vy := 0 }).vy = 0 :=
  (bounce_angle_rule true { x := 20, y := 100, width := 12, height := 90, maxSpeed := 0 }
      { x := 41, y := 145, radius := 9, speed := 0, vx := -3, vy := 0 }).1
    (by norm_num [relativeIntersect])

/-- C8: for every score pair and every angle draw in `[0, 1]`, `resetBall`
with direction `+1` yields `vx > 0` and with direction `-1` yields `vx < 0`,
and in both cases the serve is within `45°` of horizontal (`|vy| ≤ |vx|`). -/
theorem resetBall_direction (W H uAngle uDir : ℝ) (s : GameState)
    (h0 : 0 ≤ uAngle) (h1 : uAngle ≤ 1) :
    (0 < (resetBall W H uAngle uDir 1 s).ball.vx ∧
      |(resetBall W H uAngle uDir 1 s).ball.vy| ≤ |(resetBall W H uAngle uDir 1 s).ball.vx|) ∧
    ((resetBall W H uAngle uDir (-1) s).ball.vx < 0 ∧
      |(resetBall W H uAngle uDir (-1) s).ball.vy| ≤ |(resetBall W H uAngle uDir (-1) s).ball.vx|) := by
  set speed : ℝ := 9 + ((min (s.playerScore + s.computerScore) 12 : ℕ) : ℝ) * 0.35 with hspeed
  set ang : ℝ := (uAngle * 90 - 45) * π / 180 with hangdef
  have hsp : 0 < speed := resetSpeed_pos s
  have hang : |ang| ≤ π / 4 := serve_angle_abs_le uAngle h0 h1
  obtain ⟨hc1, hc2⟩ := serve_components speed ang hsp hang
  obtain ⟨hvx1, hvy1⟩ := resetBall_vx_vy W H uAngle uDir 1 s (by norm_num)
  obtain ⟨hvx2, hvy2⟩ := resetBall_vx_vy W H uAngle uDir (-1) s (by norm_num)
  rw [← hspeed, ← hangdef] at hvx1 hvy1 hvx2 hvy2
  refine ⟨⟨?_, ?_⟩, ?_, ?_⟩
  · rw [hvx1]; push_cast; linarith
  · rw [hvx1, hvy1]; push_cast
    rw [one_mul]
    calc |speed * Real.sin ang| ≤ speed * Real.cos ang := hc2
      _ ≤ |speed * Real.cos ang| := le_abs_self _
  · rw [hvx2]; push_cast; linarith
  · rw [hvx2, hvy2]; push_cast
    calc |speed * Real.sin ang| ≤ speed * Real.cos ang := hc2
      _ ≤ |(-1) * (speed * Real.cos ang)| := by
          rw [neg_one_mul, abs_neg]; exact le_abs_self _
      _ = |(-1) * speed * Real.cos ang| := by rw [mul_assoc]

/-- C4 counterexample: in a game-over state (as `endGame` leaves it: paused,
game over, win message showing), a `Space` press is **not** ignored — it flips
the paused flag to `false` and blanks the message.  This refutes the claim
that a pause-key press while Over changes neither the paused flag nor the
displayed message. -/
theorem pause_key_over_counterexample :
    (keydownSpace overState).paused = false ∧
    overState.paused = true ∧
    (keydownSpace overState).messageText = "" := by
  refine ⟨?_, rfl, ?_⟩ <;> simp [keydownSpace, overState, initState]

/-- C4 amended: the pause key always flips the paused flag and rewrites the
message (`'Paused'` or blank), in every match state including Over; it never
changes the game-over flag, and while Over the simulation step remains a
no-op after the press (the match stays halted). -/
theorem pause_key_toggles (s : GameState) :
    (keydownSpace s).paused = !s.paused ∧
    (keydownSpace s).gameOver = s.gameOver ∧
    (keydownSpace s).messageHidden = s.paused ∧
    (keydownSpace s).messageText = (if !s.paused then "Paused" else "") ∧
    (s.gameOver = true →
      ∀ W H uAngle uDir : ℝ, update W H uAngle uDir (keydownSpace s) = keydownSpace s) := by
  refine ⟨by simp [keydownSpace], by simp [keydownSpace], by simp [keydownSpace],
    by simp [keydownSpace], fun h W H uAngle uDir => ?_⟩
  have hg : (keydownSpace s).gameOver = true := by simp [keydownSpace, h]
  simp [update, hg]

/-- Witness for C4's amended claim: at the concrete post-`endGame` state the
simulation step after a `Space` press is still a no-op. -/
theorem pause_key_toggles_witness :
    update 800 500 0 0 (keydownSpace overState) = keydownSpace overState :=
  (pause_key_toggles overState).2.2.2.2 rfl 800 500 0 0

/-- C5 counterexample: `start` calls `resetBall()` **before** zeroing the
scores, so with pre-start scores `(3, 4)` the serve speed is
`9 + min(7, 12) * 0.35 = 11.45`, not the base value `9`. -/
theorem start_speed_counterexample :
    (start 800 500 0 0 { initState with playerScore := 3, computerScore := 4 }).ball.speed
        = 11.45 ∧
    (start 800 500 0 0 { initState with playerScore := 3, computerScore := 4 }).ball.speed
        ≠ 9 := by
  have h : (start 800 500 0 0
      { initState with playerScore := 3, computerScore := 4 }).ball.speed = 11.45 := by
    norm_num [start, resetBall, initState]
  exact ⟨h, by rw [h]; norm_num⟩

/-- C5 amended: `start` zeroes both scores, but the ball reset it performs
happens first, so the serve's scalar speed is
`9 + min(pre-start combined score, 12) × 0.35`; it equals the base value `9`
only when both pre-start scores are already zero. -/
theorem start_resets (W H uAngle uDir : ℝ) (s : GameState) :
    (start W H uAngle uDir s).playerScore = 0 ∧
    (start W H uAngle uDir s).computerScore = 0 ∧
    (start W H uAngle uDir s).ball.speed =
      9 + ((min (s.playerScore + s.computerScore) 12 : ℕ) : ℝ) * 0.35 ∧
    (s.playerScore = 0 → s.computerScore = 0 →
      (start W H uAngle uDir s).ball.speed = 9) := by
  have hspeed : (start W H uAngle uDir s).ball.speed =
      9 + ((min (s.playerScore + s.computerScore) 12 : ℕ) : ℝ) * 0.35 := by
    simp [start, resetBall]
  refine ⟨by simp [start, resetBall], by simp [start, resetBall], hspeed, fun h1 h2 => ?_⟩
  rw [hspeed, h1, h2]
  norm_num

/-- Witness for C5's amended claim: starting from zero pre-start scores the
serve speed is the base value `9`. -/
theorem start_resets_witness :
    (start 800 500 0 0 initState).ball.speed = 9 :=
  (start_resets 800 500 0 0 initState).2.2.2 rfl rfl

/-- C1: when a score reaches exactly `10` (the win threshold: the trailing
side at `9` and the ball past that side's boundary during a running step),
the step transitions the match to Over (`gameOver`, and `paused`, set) with
the winner's score at `10`; and from any Over state every subsequent
simulation step is a no-op — the whole state, paddles, ball and scores
included, is returned unchanged. -/
theorem win_freezes_simulation :
    (∀ (W H uAngle uDir : ℝ) (s : GameState),
      s.paused = false → s.gameOver = false →
      s.ball.vx < 0 → s.ball.x + s.ball.vx < -s.ball.radius →
      s.ball.radius = 9 → s.leftPaddle.x = 20 → s.leftPaddle.width = 12 →
      s.computerScore = 9 →
      (update W H uAngle uDir s).gameOver = true ∧
      (update W H uAngle uDir s).paused = true ∧
      (update W H uAngle uDir s).computerScore = 10) ∧
    (∀ (W H uAngle uDir : ℝ) (s : GameState),
      s.paused = false → s.gameOver = false → 0 ≤ W →
      0 < s.ball.vx → W + s.ball.radius < s.ball.x + s.ball.vx →
      s.ball.radius = 9 → s.rightPaddle.x = W - 32 → s.rightPaddle.width = 12 →
      s.playerScore = 9 →
      (update W H uAngle uDir s).gameOver = true ∧
      (update W H uAngle uDir s).paused = true ∧
      (update W H uAngle uDir s).playerScore = 10) ∧
    (∀ (W H uAngle uDir : ℝ) (s : GameState),
      s.gameOver = true → update W H uAngle uDir s = s) := by
  refine ⟨?_, ?_, ?_⟩
  · intro W H uAngle uDir s hp hg hvx hcross hrad hlx hlw hsc
    rw [update_running W H uAngle uDir s hp hg]
    obtain ⟨hx, hvx', hrad', hlx', hlw', -, -, -, hcs'⟩ := pipeline_fields H s
    set t := wallBounce H (moveBall (moveAIPaddle H (movePlayerPaddle H s))) with ht
    have hxlt : t.ball.x < -9 := by rw [hx, ← hrad]; exact hcross
    have hncl : ¬ (t.ball.vx < 0 ∧
        paddleCollision t.ball.x t.ball.y t.ball.radius t.leftPaddle) := by
      rintro ⟨-, hcol⟩
      refine paddleCollision_false t.ball.x t.ball.y t.ball.radius t.leftPaddle ?_ hcol
      rw [hrad', hrad, hlx', hlx, hlw', hlw]
      rw [clamp_eq_left (by linarith) (by linarith)]
      nlinarith
    have hncr : ¬ (0 < t.ball.vx ∧
        paddleCollision t.ball.x t.ball.y t.ball.radius t.rightPaddle) := by
      rintro ⟨hpos, -⟩
      rw [hvx'] at hpos
      linarith
    rw [paddleBounce_eq_self t hncl hncr]
    unfold scoreCheck
    rw [if_pos (show t.ball.x < -t.ball.radius by rw [hrad', hrad]; exact hxlt)]
    rw [if_pos (show WIN_SCORE ≤ t.computerScore + 1 by rw [hcs', hsc]; decide)]
    refine ⟨rfl, rfl, ?_⟩
    show t.computerScore + 1 = 10
    rw [hcs', hsc]
  · intro W H uAngle uDir s hp hg hW hvx hcross hrad hrx hrw hsc
    rw [update_running W H uAngle uDir s hp hg]
    obtain ⟨hx, hvx', hrad', -, -, hrx', hrw', hps', -⟩ := pipeline_fields H s
    set t := wallBounce H (moveBall (moveAIPaddle H (movePlayerPaddle H s))) with ht
    have hxgt : W + 9 < t.ball.x := by rw [hx, ← hrad]; exact hcross
    have hncl : ¬ (t.ball.vx < 0 ∧
        paddleCollision t.ball.x t.ball.y t.ball.radius t.leftPaddle) := by
      rintro ⟨hneg, -⟩
      rw [hvx'] at hneg
      linarith
    have hncr : ¬ (0 < t.ball.vx ∧
        paddleCollision t.ball.x t.ball.y t.ball.radius t.rightPaddle) := by
      rintro ⟨-, hcol⟩
      refine paddleCollision_false t.ball.x t.ball.y t.ball.radius t.rightPaddle ?_ hcol
      rw [hrad', hrad, hrx', hrx, hrw', hrw]
      rw [clamp_eq_right (by linarith) (by linarith)]
      nlinarith
    rw [paddleBounce_eq_self t hncl hncr]
    unfold scoreCheck
    rw [if_neg (show ¬ t.ball.x < -t.ball.radius by rw [hrad', hrad]; push_neg; linarith)]
    rw [if_pos (show W + t.ball.radius < t.ball.x by rw [hrad', hrad]; exact hxgt)]
    rw [if_pos (show WIN_SCORE ≤ t.playerScore + 1 by rw [hps', hsc]; decide)]
    refine ⟨rfl, rfl, ?_⟩
    show t.playerScore + 1 = 10
    rw [hps', hsc]
  · intro W H uAngle uDir s h
    simp [update, h]

/-- Witness for C1: a running state with the computer at `9` and the ball
exiting left reaches Over; from an Over state a step changes nothing. -/
theorem win_freezes_simulation_witness :
    ((update 800 500 0 0 matchPointState).gameOver = true ∧
      (update 800 500 0 0 matchPointState).paused = true ∧
      (update 800 500 0 0 matchPointState).computerScore = 10) ∧
    update 800 500 0 0 overState = overState :=
  ⟨win_freezes_simulation.1 800 500 0 0 matchPointState
      rfl rfl (by norm_num [matchPointState, initState])
      (by norm_num [matchPointState, initState])
      (by norm_num [matchPointState, initState])
      (by norm_num [matchPointState, initState])
      (by norm_num [matchPointState, initState]) rfl,
    win_freezes_simulation.2.2 800 500 0 0 overState rfl⟩

/-- C9: every operation that sets a paddle's `y` — the keyboard stepping and
the AI movement inside the simulation step, and the pointer/touch handlers —
leaves that `y` in `[0, H - paddleHeight]`, for arbitrary inputs (any held
keys, any ball position, any pointer coordinate). -/
theorem paddle_y_clamped (W H uAngle uDir mouseY touchY : ℝ) (s : GameState)
    (hp : s.paused = false) (hg : s.gameOver = false)
    (hl : s.leftPaddle.height ≤ H) (hr : s.rightPaddle.height ≤ H) :
    (0 ≤ (update W H uAngle uDir s).leftPaddle.y ∧
      (update W H uAngle uDir s).leftPaddle.y ≤ H - s.leftPaddle.height) ∧
    (0 ≤ (update W H uAngle uDir s).rightPaddle.y ∧
      (update W H uAngle uDir s).rightPaddle.y ≤ H - s.rightPaddle.height) ∧
    (0 ≤ (mousemove H mouseY s).leftPaddle.y ∧
      (mousemove H mouseY s).leftPaddle.y ≤ H - s.leftPaddle.height) ∧
    (0 ≤ (touchmove H touchY s).leftPaddle.y ∧
      (touchmove H touchY s).leftPaddle.y ≤ H - s.leftPaddle.height) := by
  obtain ⟨hL, hR⟩ := pipeline_paddles W H uAngle uDir s
  rw [← update_running W H uAngle uDir s hp hg] at hL hR
  have hrheight : (movePlayerPaddle H s).rightPaddle.height = s.rightPaddle.height := rfl
  have hAI : 0 ≤ (moveAIPaddle H (movePlayerPaddle H s)).rightPaddle.y ∧
      (moveAIPaddle H (movePlayerPaddle H s)).rightPaddle.y ≤
        H - (movePlayerPaddle H s).rightPaddle.height :=
    moveAIPaddle_y_bounds H (movePlayerPaddle H s) (by rw [hrheight]; exact hr)
  rw [hrheight] at hAI
  refine ⟨?_, ?_, ?_, ?_⟩
  · rw [hL]; exact movePlayerPaddle_y_bounds H s hl
  · rw [hR]; exact hAI
  · simp only [mousemove]
    exact ⟨clamp_lower _ _ _, clamp_upper _ _ _ (by linarith)⟩
  · simp only [touchmove]
    exact ⟨clamp_lower _ _ _, clamp_upper _ _ _ (by linarith)⟩

/-- Witness for C9 at the initial state with far out-of-range pointer
coordinates. -/
theorem paddle_y_clamped_witness :
    (0 ≤ (update 800 500 0 0 initState).leftPaddle.y ∧
      (update 800 500 0 0 initState).leftPaddle.y ≤ 500 - initState.leftPaddle.height) ∧
    (0 ≤ (update 800 500 0 0 initState).rightPaddle.y ∧
      (update 800 500 0 0 initState).rightPaddle.y ≤ 500 - initState.rightPaddle.height) ∧
    (0 ≤ (mousemove 500 1000000 initState).leftPaddle.y ∧
      (mousemove 500 1000000 initState).leftPaddle.y ≤ 500 - initState.leftPaddle.height) ∧
    (0 ≤ (touchmove 500 (-1000000) initState).leftPaddle.y ∧
      (touchmove 500 (-1000000) initState).leftPaddle.y ≤ 500 - initState.leftPaddle.height) :=
  paddle_y_clamped 800 500 0 0 1000000 (-1000000) initState rfl rfl
    (by norm_num [initState]) (by norm_num [initState])

/-- Witness for C8 at the centre draw `uAngle = 1/2` from the initial state. -/
theorem resetBall_direction_witness :
    (0 < (resetBall 800 500 (1/2) 0 1 initState).ball.vx ∧
      |(resetBall 800 500 (1/2) 0 1 initState).ball.vy| ≤
        |(resetBall 800 500 (1/2) 0 1 initState).ball.vx|) ∧
    ((resetBall 800 500 (1/2) 0 (-1) initState).ball.vx < 0 ∧
      |(resetBall 800 500 (1/2) 0 (-1) initState).ball.vy| ≤
        |(resetBall 800 500 (1/2) 0 (-1) initState).ball.vx|) :=
  resetBall_direction 800 500 (1/2) 0 initState (by norm_num) (by norm_num)

/-- C7: after every paddle bounce — i.e. whenever the collision test admits
the ball's position, for every pre-bounce velocity — the horizontal velocity
has magnitude at least the `2.5` floor and points away from the struck paddle
(rightward for the left paddle, leftward for the right paddle). -/
theorem reflect_horizontal_floor (isLeft : Bool) (p : Paddle) (b : Ball)
    (hh : p.height = 90) (hr : b.radius = 9)
    (hcol : paddleCollision b.x b.y b.radius p) :
    2.5 ≤ |(reflectFromPaddle isLeft p b).vx| ∧
    (isLeft = true → 2.5 ≤ (reflectFromPaddle isLeft p b).vx) ∧
    (isLeft = false → (reflectFromPaddle isLeft p b).vx ≤ -2.5) := by
  have hπ : 0 < π := Real.pi_pos
  -- the collision test bounds the ball's vertical offset from the paddle
  have hyb : |b.y - (p.y + 45)| ≤ 54 := by
    have hc1 : p.y ≤ clamp b.y p.y (p.y + p.height) := clamp_lower _ _ _
    have hc2 : clamp b.y p.y (p.y + p.height) ≤ p.y + p.height :=
      clamp_upper _ _ _ (by rw [hh]; linarith)
    unfold paddleCollision at hcol
    rw [hr] at hcol
    have hdy2 : (b.y - clamp b.y p.y (p.y + p.height)) *
        (b.y - clamp b.y p.y (p.y + p.height)) ≤ 81 := by
      nlinarith [mul_self_nonneg (b.x - clamp b.x p.x (p.x + p.width))]
    have hdyl : -9 ≤ b.y - clamp b.y p.y (p.y + p.height) := by nlinarith
    have hdyu : b.y - clamp b.y p.y (p.y + p.height) ≤ 9 := by nlinarith
    exact abs_le.mpr ⟨by linarith [hh], by linarith [hh]⟩
  have hrel : |relativeIntersect p b.y| ≤ 6 / 5 := by
    unfold relativeIntersect
    rw [hh]
    norm_num
    rw [abs_div]
    have h45 : |(45 : ℝ)| = 45 := by norm_num
    rw [h45, div_le_iff₀ (by norm_num : (0:ℝ) < 45)]
    calc |b.y - (p.y + 45)| ≤ 54 := hyb
      _ ≤ 6 / 5 * 45 := by norm_num
  have hang : |bounceAngle (relativeIntersect p b.y)| < π / 2 := by
    unfold bounceAngle
    rw [abs_mul]
    have h60 : |60 * π / 180| = π / 3 := by
      rw [abs_of_pos (by positivity)]
      ring
    rw [h60]
    nlinarith [abs_nonneg (relativeIntersect p b.y)]
  have hcos : 0 < Real.cos (bounceAngle (relativeIntersect p b.y)) := cos_pos_of_abs_lt hang
  have hcs : 0 < Real.sqrt (b.vx ^ 2 + b.vy ^ 2) + 0.8 := by
    have := Real.sqrt_nonneg (b.vx ^ 2 + b.vy ^ 2)
    linarith
  have hvx : (reflectFromPaddle isLeft p b).vx =
      (if |(if isLeft then (1:ℝ) else -1) * (Real.sqrt (b.vx ^ 2 + b.vy ^ 2) + 0.8) *
            Real.cos (bounceAngle (relativeIntersect p b.y))| < 2.5
        then (if isLeft then (1:ℝ) else -1) * 2.5
        else (if isLeft then (1:ℝ) else -1) * (Real.sqrt (b.vx ^ 2 + b.vy ^ 2) + 0.8) *
            Real.cos (bounceAngle (relativeIntersect p b.y))) := rfl
  obtain ⟨k1, k2, k3⟩ := floor_core (if isLeft then (1:ℝ) else -1)
    (Real.sqrt (b.vx ^ 2 + b.vy ^ 2) + 0.8)
    (Real.cos (bounceAngle (relativeIntersect p b.y)))
    (by cases isLeft <;> simp) hcs hcos
  refine ⟨?_, fun h => ?_, fun h => ?_⟩
  · rw [hvx]; exact k1
  · rw [hvx]; exact k2 (by rw [h]; simp)
  · rw [hvx]; exact k3 (by rw [h]; simp)

/-- Witness for C7 at a dead-centre hit on the left paddle. -/
theorem reflect_horizontal_floor_witness :
    2.5 ≤ |(reflectFromPaddle true { x := 20, y := 100, width := 12, height := 90, maxSpeed := 0 }
        { x := 30, y := 145, radius := 9, speed := 0, vx := -3, vy := 0 }).vx| ∧
    (true = true → 2.5 ≤ (reflectFromPaddle true
        { x := 20, y := 100, width := 12, height := 90, maxSpeed := 0 }
        { x := 30, y := 145, radius := 9, speed := 0, vx := -3, vy := 0 }).vx) ∧
    (true = false → (reflectFromPaddle true
        { x := 20, y := 100, width := 12, height := 90, maxSpeed := 0 }
        { x := 30, y := 145, radius := 9, speed := 0, vx := -3, vy := 0 }).vx ≤ -2.5) :=
  reflect_horizontal_floor true
    { x := 20, y := 100, width := 12, height := 90, maxSpeed := 0 }
    { x := 30, y := 145, radius := 9, speed := 0, vx := -3, vy := 0 }
    rfl rfl (by norm_num [paddleCollision, clamp, max_def, min_def])

/-- C3 counterexample: the bounds check runs **after** the ball has moved by
its velocity, so a state with the ball's centre at `x = -radius - 1 = -10`
but `vx = 9` re-enters the field and nobody scores: the right side's score is
left at `0`, refuting the claim for arbitrary states at `x = -radius - 1`. -/
theorem premove_exit_counterexample :
    ghostBallState.ball.x = -ghostBallState.ball.radius - 1 ∧
    ghostBallState.paused = false ∧ ghostBallState.gameOver = false ∧
    (update 800 500 0 0 ghostBallState).computerScore = 0 := by
  refine ⟨by norm_num [ghostBallState, initState], rfl, rfl, ?_⟩
  norm_num [update, ghostBallState, initState, movePlayerPaddle, moveAIPaddle, moveBall,
    wallBounce, paddleBounce, scoreCheck, paddleCollision, clamp, PADDLE_SPEED,
    max_def, min_def]

/-- C3 amended: a simulation step from a running state with the ball's centre
at `x = -radius - 1` scores for the right side **provided** the ball is not
about to move back past the boundary, i.e. `vx < 1` (the bounds check runs
after the `x += vx` translation); then the right side's score increments by
exactly one and, below the win threshold, the ball is reset at the centre
serving left-to-right (`vx > 0`).  Symmetrically at the right boundary
(`x = W + radius + 1`, `vx > -1`): the left side scores and the serve has
`vx < 0`. -/
theorem boundary_scoring :
    (∀ (W H uAngle uDir : ℝ) (s : GameState),
      s.paused = false → s.gameOver = false →
      0 ≤ uAngle → uAngle ≤ 1 → 33 ≤ W →
      s.ball.radius = 9 → s.ball.x = -s.ball.radius - 1 → s.ball.vx < 1 →
      s.leftPaddle.x = 20 → s.leftPaddle.width = 12 →
      s.rightPaddle.x = W - 32 → s.rightPaddle.width = 12 →
      (update W H uAngle uDir s).computerScore = s.computerScore + 1 ∧
      (s.computerScore + 1 < WIN_SCORE →
        (update W H uAngle uDir s).ball.x = W / 2 ∧
        0 < (update W H uAngle uDir s).ball.vx)) ∧
    (∀ (W H uAngle uDir : ℝ) (s : GameState),
      s.paused = false → s.gameOver = false →
      0 ≤ uAngle → uAngle ≤ 1 → 33 ≤ W →
      s.ball.radius = 9 → s.ball.x = W + s.ball.radius + 1 → -1 < s.ball.vx →
      s.leftPaddle.x = 20 → s.leftPaddle.width = 12 →
      s.rightPaddle.x = W - 32 → s.rightPaddle.width = 12 →
      (update W H uAngle uDir s).playerScore = s.playerScore + 1 ∧
      (s.playerScore + 1 < WIN_SCORE →
        (update W H uAngle uDir s).ball.x = W / 2 ∧
        (update W H uAngle uDir s).ball.vx < 0)) := by
  constructor
  · intro W H uAngle uDir s hp hg h0 h1 hW hrad hbx hvx hlx hlw hrx hrw
    rw [update_running W H uAngle uDir s hp hg]
    obtain ⟨hx, hvx', hrad', hlx', hlw', hrx', hrw', hps', hcs'⟩ := pipeline_fields H s
    set t := wallBounce H (moveBall (moveAIPaddle H (movePlayerPaddle H s))) with ht
    have hxval : t.ball.x = -10 + s.ball.vx := by
      rw [hx, hbx, hrad]; ring
    have hxlt : t.ball.x < -9 := by rw [hxval]; linarith
    have hncl : ¬ (t.ball.vx < 0 ∧
        paddleCollision t.ball.x t.ball.y t.ball.radius t.leftPaddle) := by
      rintro ⟨-, hcol⟩
      refine paddleCollision_false _ _ _ _ ?_ hcol
      rw [hrad', hrad, hlx', hlx, hlw', hlw,
        clamp_eq_left (by linarith) (by linarith)]
      have h29 : t.ball.x - 20 < -29 := by linarith
      nlinarith [h29]
    have hncr : ¬ (0 < t.ball.vx ∧
        paddleCollision t.ball.x t.ball.y t.ball.radius t.rightPaddle) := by
      rintro ⟨-, hcol⟩
      refine paddleCollision_false _ _ _ _ ?_ hcol
      rw [hrad', hrad, hrx', hrx, hrw', hrw,
        clamp_eq_left (by linarith) (by linarith)]
      have h10 : t.ball.x - (W - 32) < -10 := by linarith
      nlinarith [h10]
    rw [paddleBounce_eq_self t hncl hncr]
    unfold scoreCheck
    rw [if_pos (show t.ball.x < -t.ball.radius by rw [hrad', hrad]; exact hxlt)]
    by_cases hwin : WIN_SCORE ≤ t.computerScore + 1
    · rw [if_pos hwin]
      refine ⟨?_, fun hlt => ?_⟩
      · show t.computerScore + 1 = s.computerScore + 1
        rw [hcs']
      · rw [hcs'] at hwin
        exact absurd hwin (by omega)
    · rw [if_neg hwin]
      refine ⟨?_, fun hlt => ?_⟩
      · show t.computerScore + 1 = s.computerScore + 1
        rw [hcs']
      · exact ⟨(resetBall_centers W H uAngle uDir 1 _).1,
          (resetBall_vx_sign W H uAngle uDir _ h0 h1).1⟩
  · intro W H uAngle uDir s hp hg h0 h1 hW hrad hbx hvx hlx hlw hrx hrw
    rw [update_running W H uAngle uDir s hp hg]
    obtain ⟨hx, hvx', hrad', hlx', hlw', hrx', hrw', hps', hcs'⟩ := pipeline_fields H s
    set t := wallBounce H (moveBall (moveAIPaddle H (movePlayerPaddle H s))) with ht
    have hxval : t.ball.x = W + 10 + s.ball.vx := by
      rw [hx, hbx, hrad]; ring
    have hxgt : W + 9 < t.ball.x := by rw [hxval]; linarith
    have hncl : ¬ (t.ball.vx < 0 ∧
        paddleCollision t.ball.x t.ball.y t.ball.radius t.leftPaddle) := by
      rintro ⟨-, hcol⟩
      refine paddleCollision_false _ _ _ _ ?_ hcol
      rw [hrad', hrad, hlx', hlx, hlw', hlw,
        clamp_eq_right (by linarith) (by linarith)]
      have h10 : 10 < t.ball.x - 32 := by linarith
      nlinarith [h10]
    have hncr : ¬ (0 < t.ball.vx ∧
        paddleCollision t.ball.x t.ball.y t.ball.radius t.rightPaddle) := by
      rintro ⟨-, hcol⟩
      refine paddleCollision_false _ _ _ _ ?_ hcol
      rw [hrad', hrad, hrx', hrx, hrw', hrw,
        clamp_eq_right (by linarith) (by linarith)]
      have h29 : 29 < t.ball.x - (W - 32 + 12) := by linarith
      nlinarith [h29]
    rw [paddleBounce_eq_self t hncl hncr]
    unfold scoreCheck
    rw [if_neg (show ¬ t.ball.x < -t.ball.radius by
      rw [hrad', hrad]; push_neg; linarith)]
    rw [if_pos (show W + t.ball.radius < t.ball.x by rw [hrad', hrad]; exact hxgt)]
    by_cases hwin : WIN_SCORE ≤ t.playerScore + 1
    · rw [if_pos hwin]
      refine ⟨?_, fun hlt => ?_⟩
      · show t.playerScore + 1 = s.playerScore + 1
        rw [hps']
      · rw [hps'] at hwin
        exact absurd hwin (by omega)
    · rw [if_neg hwin]
      refine ⟨?_, fun hlt => ?_⟩
      · show t.playerScore + 1 = s.playerScore + 1
        rw [hps']
      · exact ⟨(resetBall_centers W H uAngle uDir (-1) _).1,
          (resetBall_vx_sign W H uAngle uDir _ h0 h1).2⟩

/-- Witness for C3's amended claim: a leftward ball at `x = -10` from the
initial state scores for the computer and is re-served rightward. -/
theorem boundary_scoring_witness :
    (update 800 500 0 0 exitLeftState).computerScore = exitLeftState.computerScore + 1 ∧
    (update 800 500 0 0 exitLeftState).ball.x = 800 / 2 ∧
    0 < (update 800 500 0 0 exitLeftState).ball.vx := by
  have h := boundary_scoring.1 800 500 0 0 exitLeftState rfl rfl
    (by norm_num) (by norm_num) (by norm_num)
    (by norm_num [exitLeftState, initState]) (by norm_num [exitLeftState, initState])
    (by norm_num [exitLeftState, initState]) (by norm_num [exitLeftState, initState])
    (by norm_num [exitLeftState, initState]) (by norm_num [exitLeftState, initState])
    (by norm_num [exitLeftState, initState])
  exact ⟨h.1, h.2 (by norm_num [exitLeftState, initState, WIN_SCORE])⟩

end Pong
